import Mathlib

/-!
Shallow embedding of the backup-tools media pipeline
(check_integrity.py, encoder.py, select_best.py, select_best_del.py),
with theorems settling the specification claims about it.
Machine reals of the source are modelled by exact rationals (ℚ),
file sizes and bitrates by ℕ, and the filesystem by explicit state.
-/

namespace BackupTools

/-! Embedding of check_integrity.py -/

/-- The choices accepted by the `--mode` argument of check_integrity.py
(`get_args`, the `-m` option). -/
def modeChoices : List String := ["time", "decode", "both"]

/-- Guard of the time-check branch in `check_integrity.main`:
`if mode in ['time', 'both']`. -/
def runsTimeCheck (mode : String) : Bool := (["time", "both"] : List String).contains mode

/-- Guard of the decoding-test branch in `check_integrity.main`:
`if mode in ['code', 'both']` (source line 184, verbatim). -/
def runsDecodeCheck (mode : String) : Bool := (["code", "both"] : List String).contains mode

/-- Whether one video lands on `vids_To_Delete` in `check_integrity.main`,
as a function of which checks run and whether each one fails: the time
branch appends on a time failure, the decode branch appends on a decode
failure (guarded against double insertion, which the Bool disjunction
already captures). -/
def vidFlagged (mode : String) (timeFails decodeFails : Bool) : Bool :=
  (runsTimeCheck mode && timeFails) || (runsDecodeCheck mode && decodeFails)

/-- Outcome of the time-check branch of `check_integrity.main` for one video.
`get_duration` returns `None` on an unreadable duration, modelled by
`Option ℚ` inputs. -/
inductive TimeCheckResult
  | secondaryUnknown
  | originalUnknown
  | durationOk
  | durationMismatch
deriving DecidableEq, Repr

/-- The time-check branch of `check_integrity.main` (source lines 159-181):
Case 1, secondary duration unreadable; Case 2, original duration unreadable;
Case 3, compare `abs(dur_secondary - dur_original)` against the margin. -/
def timeCheck (durSecondary durOriginal : Option ℚ) (margin : ℚ) : TimeCheckResult :=
  match durSecondary with
  | none => .secondaryUnknown
  | some ds =>
    match durOriginal with
    | none => .originalUnknown
    | some dOrig => if |ds - dOrig| ≤ margin then .durationOk else .durationMismatch

/-- Whether the time-check outcome appends the video to `vids_To_Delete`
in `check_integrity.main`: Case 1 and Case 3-mismatch do, Case 2 and
Case 3-match do not. -/
def timeCheckAddsToDelete : TimeCheckResult → Bool
  | .secondaryUnknown => true
  | .originalUnknown => false
  | .durationOk => false
  | .durationMismatch => true

/-- The deleting logic at the end of `check_integrity.main` (lines 196-206):
returns the list of files actually passed to `delete_files`. Deletion runs
only when the `--delete` flag is set, the list is nonempty, and the
operator's answer is exactly `y`; the source strips and lowercases the raw
`input()` before the comparison, so `confirm` here is that normalized
answer. -/
def deletedFiles (delete : Bool) (vidsToDelete : List String) (confirm : String) : List String :=
  if delete then
    if vidsToDelete ≠ [] then
      if confirm = "y" then vidsToDelete else []
    else []
  else []

/-! Embedding of encoder.py -/

/-- The scale factor computed in `encoder.get_new_resolution`:
`new_res / width` when `width <= height`, else `new_res / height`. -/
def scaleFactor (width height newRes : ℕ) : ℚ :=
  if width ≤ height then (newRes : ℚ) / (width : ℚ) else (newRes : ℚ) / (height : ℚ)

/-- The even-forcing step of `encoder.get_new_resolution`:
`n + 1 if n % 2 != 0 else n`. -/
def evenUp (n : ℕ) : ℕ := if n % 2 ≠ 0 then n + 1 else n

/-- The downscaled dimensions computed in `encoder.get_new_resolution`
(lines 117-127): `math.floor` of each dimension times the scale factor,
then each bumped up by one when odd. -/
def scaledDims (width height newRes : ℕ) : ℕ × ℕ :=
  let sf := scaleFactor width height newRes
  let newWidth := (⌊(width : ℚ) * sf⌋).toNat
  let newHeight := (⌊(height : ℚ) * sf⌋).toNat
  (evenUp newWidth, evenUp newHeight)

/-- Return value of `encoder.get_new_resolution`: the smaller scaled
dimension when the smaller source dimension exceeds `new_res`, otherwise
the smaller source dimension. -/
def get_new_resolution (width height newRes : ℕ) : ℕ :=
  let dims := scaledDims width height newRes
  if min width height > newRes then min dims.2 dims.1 else min width height

/-- Dimension derivation following the spec text of §4.2, for comparison
with `scaledDims`: scale both dimensions uniformly by `cap / min(width,height)`,
then force each dimension to the nearest even integer by rounding DOWN. -/
def specScaledDimsRoundDown (width height cap : ℕ) : ℕ × ℕ :=
  let sf : ℚ := (cap : ℚ) / ((min width height : ℕ) : ℚ)
  let newWidth := (⌊(width : ℚ) * sf⌋).toNat
  let newHeight := (⌊(height : ℚ) * sf⌋).toNat
  ((if newWidth % 2 ≠ 0 then newWidth - 1 else newWidth),
   (if newHeight % 2 ≠ 0 then newHeight - 1 else newHeight))

/-- Normalization of the `--audiobitrate` argument in `encoder.encode_video`
(lines 219-222): `int(audio_bitrate)` with fallback 128 when the conversion
fails, the failure modelled by `none`. -/
def audioBitrateInt (audioBitrateArg : Option ℕ) : ℕ := audioBitrateArg.getD 128

/-- The audio-bitrate cap rule of `encoder.encode_video` (lines 224-228):
keep the probed source bitrate when it is nonzero and at most the cap,
otherwise use the cap. -/
def audioBitrateKbps (origBitrate capKbps : ℕ) : ℕ :=
  if origBitrate ≠ 0 ∧ origBitrate ≤ capKbps then origBitrate else capKbps

/-- The progress-percent computation of `encoder.encode_video` (lines 260-267)
for one parsed `out_time_ms` value: `completed_sec = out_time_ms / 1_000_000`,
`pct = (completed_sec / duration) * 100 if duration else 0`,
`pct = min(pct, 100)`. -/
def progressPct (outTimeMs : ℤ) (duration : ℚ) : ℚ :=
  let completedSec : ℚ := (outTimeMs : ℚ) / 1000000
  let pct : ℚ := if duration ≠ 0 then completedSec / duration * 100 else 0
  min pct 100

/-- Top-level actions of `encoder.encode_video` after the progress loop
ends (lines 276-286): print the final progress line, then either the OK
message (exit code 0) or, through the raised `CalledProcessError` and the
handler, the error message.  No branch touches the output file. -/
inductive EncAction
  | printFinalProgress
  | printOkMsg
  | printErrorMsg
  | unlinkOutput
deriving DecidableEq, Repr

/-- Terminal behaviour of `encoder.encode_video` as a function of the
encoder process exit code. -/
def encodeVideoTerminalActions (returncode : ℤ) : List EncAction :=
  if returncode = 0 then [.printFinalProgress, .printOkMsg]
  else [.printFinalProgress, .printErrorMsg]

/-- Whether a file is present at the output path after `encode_video`
returns, given whether the encoder process had (partially) written it:
the file is removed only if some terminal action unlinks it. -/
def outputPresentAfter (partialWritten : Bool) (returncode : ℤ) : Bool :=
  if EncAction.unlinkOutput ∈ encodeVideoTerminalActions returncode then false
  else partialWritten

/-- Output filename built in `encoder.main`: `vid.stem + extension`. -/
def outName (stem extension : String) : String := stem ++ extension

/-- One iteration of the batch loop of `encoder.main` (lines 374-385) over
an abstract filesystem (name to optional content): when the output file
already exists the iteration skips (second component `false`), otherwise it
invokes the encoder, modelled by `enc`, writing its result at the output
name. -/
def stepEncode (enc : String → Option String) (fs : String → Option String)
    (stem extension : String) : (String → Option String) × Bool :=
  if (fs (outName stem extension)).isSome then (fs, false)
  else ((fun n => if n = outName stem extension then enc stem else fs n), true)

/-- The whole batch loop of `encoder.main`, iterating `stepEncode` over the
sorted list of input stems. -/
def runBatch (enc : String → Option String) (fs : String → Option String)
    (stems : List String) (extension : String) : String → Option String :=
  match stems with
  | [] => fs
  | s :: rest => runBatch enc (stepEncode enc fs s extension).1 rest extension

/-! Embedding of select_best.py and select_best_del.py -/

/-- The retention decision of `select_best.main` (§3 RetentionDecision). -/
inductive Keep
  | ORIGINAL
  | CANDIDATE
  | CANDIDATE_NO_ORIGINAL
deriving DecidableEq, Repr

/-- Which file `select_best.main` keeps (moves to `final_vid/`), as a
function of the original's size (`None` when `orig.exists()` is false) and
the candidate's size: no original moves the candidate; a strictly smaller
candidate moves the candidate; otherwise the original moves. -/
def selectKeep (sizeOriginal : Option ℕ) (sizeCandidate : ℕ) : Keep :=
  match sizeOriginal with
  | none => .CANDIDATE_NO_ORIGINAL
  | some so => if sizeCandidate < so then .CANDIDATE else .ORIGINAL

/-- The two files of one (original, candidate) pair. -/
inductive PairFile
  | original
  | candidate
deriving DecidableEq, Repr

/-- Filesystem-affecting actions a selector branch can take. -/
inductive FsAction
  | moveToFinal (f : PairFile)
  | unlink (f : PairFile)
  | confirmPrompt
deriving DecidableEq, Repr

/-- Actions of one iteration of `select_best.main` (lines 52-69): every
branch moves exactly one file with `shutil.move` and nothing is unlinked. -/
def selBestActions (sizeOriginal : Option ℕ) (sizeCandidate : ℕ) : List FsAction :=
  match sizeOriginal with
  | none => [.moveToFinal .candidate]
  | some so =>
    if sizeCandidate < so then [.moveToFinal .candidate]
    else [.moveToFinal .original]

/-- Actions of one iteration of `select_best_del.main` (lines 52-69): the
no-original branch only moves the candidate; the two comparison branches
move the winner and immediately `unlink` the loser. -/
def selBestDelActions (sizeOriginal : Option ℕ) (sizeCandidate : ℕ) : List FsAction :=
  match sizeOriginal with
  | none => [.moveToFinal .candidate]
  | some so =>
    if sizeCandidate < so then [.moveToFinal .candidate, .unlink .original]
    else [.moveToFinal .original, .unlink .candidate]

/-- The files moved to the final directory by a list of actions. -/
def movedFiles (acts : List FsAction) : List PairFile :=
  acts.filterMap fun a =>
    match a with
    | .moveToFinal f => some f
    | _ => none

/-- The files unlinked by a list of actions. -/
def unlinkedFiles (acts : List FsAction) : List PairFile :=
  acts.filterMap fun a =>
    match a with
    | .unlink f => some f
    | _ => none

/-! Helper lemmas -/

/-- The even-forcing step of `get_new_resolution` always yields an even
number. -/
theorem evenUp_mod_two (n : ℕ) : evenUp n % 2 = 0 := by
  unfold evenUp
  split <;> omega

/-- The branching scale factor of `get_new_resolution` equals
`new_res / min(width, height)`. -/
theorem scaleFactor_eq_min (width height newRes : ℕ) :
    scaleFactor width height newRes = (newRes : ℚ) / ((min width height : ℕ) : ℚ) := by
  unfold scaleFactor
  by_cases hwh : width ≤ height
  · rw [if_pos hwh, Nat.min_eq_left hwh]
  · rw [if_neg hwh, Nat.min_eq_right (Nat.le_of_not_le hwh)]

/-- A batch iteration whose output file already exists returns the
filesystem unchanged and reports that no encode ran. -/
theorem stepEncode_skips (enc fs : String → Option String) (stem extension : String)
    (hs : (fs (outName stem extension)).isSome = true) :
    stepEncode enc fs stem extension = (fs, false) := by
  unfold stepEncode
  rw [if_pos hs]

/-- A batch iteration never changes the content of a file that already
exists. -/
theorem stepEncode_preserves (enc fs : String → Option String)
    (stem extension n : String) (hn : (fs n).isSome = true) :
    (stepEncode enc fs stem extension).1 n = fs n := by
  unfold stepEncode
  by_cases hout : (fs (outName stem extension)).isSome = true
  · rw [if_pos hout]
  · have hne : n ≠ outName stem extension := by
      intro he
      rw [he] at hn
      exact hout hn
    rw [if_neg hout]
    simp only [hne, if_false]

/-- The whole batch loop never changes the content of a file that already
existed when the loop started. -/
theorem runBatch_preserves (enc : String → Option String) (stems : List String)
    (fs : String → Option String) (extension n : String) (hn : (fs n).isSome = true) :
    runBatch enc fs stems extension n = fs n := by
  induction stems generalizing fs with
  | nil => rfl
  | cons s rest ih =>
    have hstep := stepEncode_preserves enc fs s extension n hn
    have hn2 : ((stepEncode enc fs s extension).1 n).isSome = true := by
      rw [hstep]
      exact hn
    calc runBatch enc fs (s :: rest) extension n
        = runBatch enc (stepEncode enc fs s extension).1 rest extension n := rfl
      _ = (stepEncode enc fs s extension).1 n := ih _ hn2
      _ = fs n := hstep

/-! Claim theorems -/

/-- C1: requesting the decode check alone must execute it, but the mode
string `decode` offered by the CLI is not the string `code` tested by the
decoding branch of `check_integrity.main`: with `--mode decode` neither the
decode nor the time branch runs, and a candidate that fails decoding is
never flagged for deletion, a vacuous pass. -/
theorem decode_mode_runs_no_check :
    "decode" ∈ modeChoices ∧
    runsDecodeCheck "decode" = false ∧
    runsTimeCheck "decode" = false ∧
    runsDecodeCheck "both" = true ∧
    vidFlagged "decode" false true = false := by
  refine ⟨by decide, rfl, rfl, rfl, rfl⟩

/-- C2: a transcode job whose encoder process exits nonzero is supposed to
delete the partial file at the output path, but no terminal action of
`encoder.encode_video` unlinks the output: after a failed job (exit code 1)
a partially written output file is still present. -/
theorem failed_job_leaves_partial_output :
    outputPresentAfter true 1 = true ∧
    EncAction.unlinkOutput ∉ encodeVideoTerminalActions 1 := by
  decide

/-- C3 counterexample: for source 1080x1925 and cap 720 (smaller dimension
1080 exceeds the cap), `get_new_resolution` computes 720x1284, while the
spec's round-DOWN-to-even rule yields 720x1282: the code rounds an odd
scaled dimension up, not down. -/
theorem scaled_dims_not_rounded_down :
    720 < min 1080 1925 ∧
    scaledDims 1080 1925 720 = (720, 1284) ∧
    specScaledDimsRoundDown 1080 1925 720 = (720, 1282) := by
  have h1 : (⌊(1080 : ℚ) * ((720 : ℚ) / (1080 : ℚ))⌋) = 720 := by norm_num
  have h2 : (⌊(1925 : ℚ) * ((720 : ℚ) / (1080 : ℚ))⌋) = 1283 := by norm_num
  refine ⟨by decide, ?_, ?_⟩
  · simp only [scaledDims, scaleFactor]
    norm_num [h1, h2, evenUp]
    decide
  · simp only [specScaledDimsRoundDown]
    norm_num [h1, h2]
    decide

/-- C3 amended: when the smaller source dimension exceeds the cap, the
derived dimensions are obtained by scaling both dimensions uniformly by
`cap / min(width, height)`, flooring, and forcing each dimension even by
rounding UP (adding one to an odd floor); both derived dimensions are
even. -/
theorem scaled_dims_even_rounding_up (width height cap : ℕ)
    (_hcap : cap < min width height) :
    (scaledDims width height cap).1 % 2 = 0 ∧
    (scaledDims width height cap).2 % 2 = 0 ∧
    scaledDims width height cap =
      (evenUp ((⌊(width : ℚ) * ((cap : ℚ) / ((min width height : ℕ) : ℚ))⌋).toNat),
       evenUp ((⌊(height : ℚ) * ((cap : ℚ) / ((min width height : ℕ) : ℚ))⌋).toNat)) := by
  refine ⟨evenUp_mod_two _, evenUp_mod_two _, ?_⟩
  simp only [scaledDims, scaleFactor_eq_min]

/-- C3 witness: the amended rounding rule instantiated at source 1080x1925
with cap 720. -/
theorem scaled_dims_even_rounding_up_witness :
    (scaledDims 1080 1925 720).1 % 2 = 0 ∧
    (scaledDims 1080 1925 720).2 % 2 = 0 ∧
    scaledDims 1080 1925 720 =
      (evenUp ((⌊(1080 : ℚ) * ((720 : ℚ) / ((min 1080 1925 : ℕ) : ℚ))⌋).toNat),
       evenUp ((⌊(1925 : ℚ) * ((720 : ℚ) / ((min 1080 1925 : ℕ) : ℚ))⌋).toNat)) :=
  scaled_dims_even_rounding_up 1080 1925 720 (by decide)

/-- C4 counterexample: on a pair where the original (8 MiB) is smaller than
the candidate (10 MiB), `select_best_del.main` unlinks the candidate inside
the selection branch itself, and no operator-confirmation step occurs
anywhere in its action list. -/
theorem selection_deletes_without_confirmation :
    FsAction.unlink PairFile.candidate ∈ selBestDelActions (some 8388608) 10485760 ∧
    FsAction.confirmPrompt ∉ selBestDelActions (some 8388608) 10485760 := by
  decide

/-- C4 amended: deletion of integrity-check failures in
`check_integrity.main` is a separate confirmable step (files reach
`delete_files` only when the delete flag is set and the operator answers
`y`), but the deleting selector `select_best_del.main` unlinks the losing
file of every pair with an existing original directly inside the selection
branch, with no confirmation prompt. -/
theorem deletion_confirmation_split (delete : Bool) (vids : List String)
    (confirm : String) (f : String) (hf : f ∈ deletedFiles delete vids confirm)
    (so sc : ℕ) :
    (delete = true ∧ confirm = "y") ∧
    FsAction.confirmPrompt ∉ selBestDelActions (some so) sc ∧
    FsAction.unlink (if sc < so then PairFile.original else PairFile.candidate)
      ∈ selBestDelActions (some so) sc := by
  refine ⟨?_, ?_, ?_⟩
  · unfold deletedFiles at hf
    by_cases hd : delete
    · by_cases hv : vids ≠ []
      · by_cases hc : confirm = "y"
        · exact ⟨hd, hc⟩
        · simp [hd, hv, hc] at hf
      · simp [hd, hv] at hf
    · simp [hd] at hf
  · unfold selBestDelActions
    by_cases h : sc < so <;> simp [h]
  · unfold selBestDelActions
    by_cases h : sc < so <;> simp [h]

/-- C4 witness: the confirmation split instantiated on a confirmed
deletion of one file and on the 8 MiB original / 10 MiB candidate pair. -/
theorem deletion_confirmation_split_witness :
    (true = true ∧ ("y" : String) = "y") ∧
    FsAction.confirmPrompt ∉ selBestDelActions (some 8388608) 10485760 ∧
    FsAction.unlink
        (if 10485760 < 8388608 then PairFile.original else PairFile.candidate)
      ∈ selBestDelActions (some 8388608) 10485760 :=
  deletion_confirmation_split true ["v"] "y" "v" (by decide) 8388608 10485760

/-- C5 counterexample: a candidate whose own duration is unreadable
(`get_duration` returned `None`) is reported as unknown, yet it is
appended to the deletion list by the time check of
`check_integrity.main`. -/
theorem unknown_duration_marks_for_deletion :
    timeCheck none (some 10) (1 / 2) = TimeCheckResult.secondaryUnknown ∧
    timeCheckAddsToDelete (timeCheck none (some 10) (1 / 2)) = true := by
  refine ⟨rfl, rfl⟩

/-- C5 amended: an unreadable ORIGINAL duration yields the distinct
original-unknown outcome, which only warns and never marks the candidate
for deletion; an unreadable CANDIDATE duration, however, always marks the
candidate for deletion. -/
theorem unknown_duration_outcomes (dOriginal : Option ℚ) (ds margin : ℚ) :
    timeCheck (some ds) none margin = TimeCheckResult.originalUnknown ∧
    timeCheckAddsToDelete (timeCheck (some ds) none margin) = false ∧
    TimeCheckResult.originalUnknown ≠ TimeCheckResult.durationMismatch ∧
    timeCheckAddsToDelete (timeCheck none dOriginal margin) = true := by
  refine ⟨rfl, rfl, by decide, ?_⟩
  cases dOriginal <;> rfl

/-- C6 counterexample: with an unknown (zero) probed audio bitrate, the
bitrate sent to the encoder is the configured cap, not a fixed 64 kbps
value: cap 128 yields 128 and cap 96 yields 96. -/
theorem unknown_bitrate_uses_cap_not_64 :
    audioBitrateKbps 0 128 = 128 ∧
    audioBitrateKbps 0 96 = 96 ∧
    audioBitrateKbps 0 128 ≠ 64 := by
  decide

/-- C6 amended: when the probed source bitrate is unknown (0) the plan uses
the configured cap (and the cap itself defaults to 128 when its argument is
unparsable); a known bitrate at or under the cap passes through unchanged;
a known bitrate over the cap is clamped to the cap. -/
theorem audio_bitrate_rule (origBitrate capKbps : ℕ) :
    (origBitrate = 0 → audioBitrateKbps origBitrate capKbps = capKbps) ∧
    (origBitrate ≠ 0 → origBitrate ≤ capKbps →
      audioBitrateKbps origBitrate capKbps = origBitrate) ∧
    (capKbps < origBitrate → audioBitrateKbps origBitrate capKbps = capKbps) ∧
    audioBitrateInt none = 128 := by
  refine ⟨?_, ?_, ?_, rfl⟩
  · intro h
    unfold audioBitrateKbps
    simp [h]
  · intro h1 h2
    unfold audioBitrateKbps
    rw [if_pos ⟨h1, h2⟩]
  · intro h
    unfold audioBitrateKbps
    rw [if_neg]
    rintro ⟨_, hle⟩
    omega

/-- C6 witness: the audio rule instantiated at an unknown source bitrate
with cap 96, a known 64 kbps source under a 128 kbps cap, and a known
256 kbps source over a 128 kbps cap. -/
theorem audio_bitrate_rule_witness :
    audioBitrateKbps 0 96 = 96 ∧
    audioBitrateKbps 64 128 = 64 ∧
    audioBitrateKbps 256 128 = 128 :=
  ⟨(audio_bitrate_rule 0 96).1 rfl,
   (audio_bitrate_rule 64 128).2.1 (by decide) (by decide),
   (audio_bitrate_rule 256 128).2.2.1 (by decide)⟩

/-- C7: with both files present the selector keeps the candidate iff it is
strictly smaller than the original; a tie or a larger candidate keeps the
original; with no original on disk the candidate is unconditionally
kept. -/
theorem retention_selection_rule (so sc : ℕ) :
    (selectKeep (some so) sc = Keep.CANDIDATE ↔ sc < so) ∧
    (selectKeep (some so) sc = Keep.ORIGINAL ↔ so ≤ sc) ∧
    selectKeep (some sc) sc = Keep.ORIGINAL ∧
    selectKeep none sc = Keep.CANDIDATE_NO_ORIGINAL := by
  refine ⟨?_, ?_, ?_, rfl⟩
  · unfold selectKeep
    by_cases h : sc < so <;> simp [h]
  · unfold selectKeep
    by_cases h : sc < so
    · simp [h]
    · simp [h]
      omega
  · unfold selectKeep
    simp

/-- C8: each parsed `out_time_ms` update reports
`min(100, 100 * (out_time_ms / 1_000_000) / duration)`, reports 0 whenever
the duration is zero or unknown, and never exceeds 100. -/
theorem progress_pct_formula (outTimeMs : ℤ) (duration : ℚ) :
    progressPct outTimeMs duration =
      (if duration = 0 then 0
       else min 100 (100 * ((outTimeMs : ℚ) / 1000000) / duration)) ∧
    progressPct outTimeMs duration ≤ 100 := by
  unfold progressPct
  constructor
  · by_cases h : duration = 0
    · simp [h]
    · simp only [h, ne_eq, not_false_eq_true, if_true, if_neg]
      rw [min_comm]
      congr 1
      ring
  · exact min_le_right _ _

/-- C9: a batch iteration whose output file already exists skips the encode
and leaves that file unchanged, and a whole batch run never changes any
file that already existed, so re-running a batch never overwrites a
previously produced output. -/
theorem batch_skips_existing_outputs (enc fs : String → Option String)
    (stems : List String) (extension n stem : String)
    (hn : (fs n).isSome = true)
    (hs : (fs (outName stem extension)).isSome = true) :
    runBatch enc fs stems extension n = fs n ∧
    stepEncode enc fs stem extension = (fs, false) :=
  ⟨runBatch_preserves enc stems fs extension n hn,
   stepEncode_skips enc fs stem extension hs⟩

/-- C9 witness: on a filesystem already holding `a.mkv`, re-running the
batch over stems `a`, `b` leaves `a.mkv` unchanged and the iteration for
stem `a` is a skip. -/
theorem batch_skips_existing_outputs_witness :
    runBatch (fun _ => none)
        (fun n => if n = "a.mkv" then some "done" else none)
        ["a", "b"] ".mkv" "a.mkv" =
      (fun n => if n = "a.mkv" then some "done" else none) "a.mkv" ∧
    stepEncode (fun _ => none)
        (fun n => if n = "a.mkv" then some "done" else none) "a" ".mkv" =
      ((fun n => if n = "a.mkv" then some "done" else none), false) :=
  batch_skips_existing_outputs (fun _ => none)
    (fun n => if n = "a.mkv" then some "done" else none)
    ["a", "b"] ".mkv" "a.mkv" "a" (by decide) (by decide)

/-- C10: every branch of both selectors moves exactly one of the two files
to the final directory; the non-deleting selector unlinks nothing, and in
the deleting selector the moved file is never among the unlinked ones and
at most one file is unlinked, so at least one member of every pair
survives. -/
theorem one_of_pair_survives (so : Option ℕ) (sc : ℕ) :
    (movedFiles (selBestActions so sc)).length = 1 ∧
    unlinkedFiles (selBestActions so sc) = [] ∧
    (movedFiles (selBestDelActions so sc)).length = 1 ∧
    (movedFiles (selBestDelActions so sc)).inter
      (unlinkedFiles (selBestDelActions so sc)) = [] ∧
    (unlinkedFiles (selBestDelActions so sc)).length ≤ 1 := by
  rcases so with _ | v
  · exact ⟨rfl, rfl, rfl, rfl, Nat.zero_le 1⟩
  · by_cases h : sc < v <;>
      simp [selBestActions, selBestDelActions, h, movedFiles, unlinkedFiles,
        List.inter]

end BackupTools
